import Mathlib

/-!
Verification development for the fedical scheduled-posting service.

The definitions below are a shallow embedding of the TypeScript sources:
the posts module (PlannedPost store, POST/GET/PATCH/DELETE handlers, the
polling scheduler's dispatch loop, sendStatus) and the auth module
(OAuth authorize/callback, /me, /logout, token+identity stores, durable
load/save).  JavaScript Maps are embedded as insertion-ordered association
lists, instants as integer milliseconds, and the external boundaries
(URL validation, Date parsing, JSON parsing, fetch responses) as explicit
function/value parameters, mirroring how the handlers consume them.
-/

namespace Fedical

/-- A JavaScript Map with string keys: an insertion-ordered association list.
JS Map.set keeps the position of an existing key and appends new keys. -/
abbrev JsMap (α : Type) : Type := List (String × α)

def mapGet {α : Type} (m : JsMap α) (k : String) : Option α :=
  (m.find? (fun e => e.1 == k)).map (·.2)

def mapSet {α : Type} (m : JsMap α) (k : String) (v : α) : JsMap α :=
  if m.any (fun e => e.1 == k) then
    m.map (fun e => if e.1 == k then (k, v) else e)
  else
    m ++ [(k, v)]

def mapDelete {α : Type} (m : JsMap α) (k : String) : JsMap α :=
  m.filter (fun e => e.1 != k)

/-- Map.values() iteration order. -/
def mapValues {α : Type} (m : JsMap α) : List α :=
  m.map (·.2)

def mapKeys {α : Type} (m : JsMap α) : List String :=
  m.map (·.1)

/-- Post visibility enum ("public" / "unlisted" / "private" / "direct"). -/
inductive Visibility where
  | pub | unlisted | priv | direct
deriving DecidableEq, Repr

/-- The string form used on the wire for each visibility value. -/
def Visibility.str : Visibility → String
  | .pub => "public"
  | .unlisted => "unlisted"
  | .priv => "private"
  | .direct => "direct"

/-- `allowedVisibility.includes` and the conversion from a request string. -/
def parseVisibility (s : String) : Option Visibility :=
  if s = "public" then some .pub
  else if s = "unlisted" then some .unlisted
  else if s = "private" then some .priv
  else if s = "direct" then some .direct
  else none

/-- PlannedPost.status values. -/
inductive PostStatus where
  | draft | scheduled | sending | sent | failed | canceled
deriving DecidableEq, Repr

def PostStatus.str : PostStatus → String
  | .draft => "draft"
  | .scheduled => "scheduled"
  | .sending => "sending"
  | .sent => "sent"
  | .failed => "failed"
  | .canceled => "canceled"

/-- `allowedStatus.includes` in the PATCH handler and the conversion from a
request string (the handler's allowed list includes all six values). -/
def parseStatus (s : String) : Option PostStatus :=
  if s = "draft" then some .draft
  else if s = "scheduled" then some .scheduled
  else if s = "sending" then some .sending
  else if s = "sent" then some .sent
  else if s = "failed" then some .failed
  else if s = "canceled" then some .canceled
  else none

/-- PlannedPost record (posts module).  `inst` is the source's `instance`
field (a reserved word in Lean); instants are kept as the ISO strings the
code stores, compared through the parse function of the environment. -/
structure PlannedPost where
  id : String
  inst : String
  ownerAccountId : Option String
  scheduledAt : String
  text : String
  visibility : Visibility
  status : PostStatus
  attempts : Nat
  lastError : Option String
  sentAt : Option String
  remoteId : Option String
  createdAt : String
  updatedAt : String
deriving DecidableEq, Repr

/-- AccountIdentity record (auth module), keyed by origin. -/
structure AccountIdentity where
  id : String
  username : String
  acct : String
  displayName : String
  avatar : Option String
deriving DecidableEq, Repr

/-- TokenRecord (auth module), keyed by origin. -/
structure TokenRecord where
  accessToken : String
  tokenType : Option String
  scope : Option String
  updatedAt : String
deriving DecidableEq, Repr

/-- PendingState entry of the OAuth flow, keyed by the `state` token. -/
structure PendingState where
  origin : String
  clientId : String
  createdAt : Int
  redirectUri : Option String
deriving DecidableEq, Repr

/-- An HTTP response as the handlers observe it: numeric status plus the
body text.  A fetch outcome is `Option HttpResponse`, `none` meaning the
fetch call threw (network failure / timeout). -/
structure HttpResponse where
  status : Nat
  body : String
deriving DecidableEq, Repr

/-- `res.ok`: status in the 2xx range. -/
def respOk (r : HttpResponse) : Prop := 200 ≤ r.status ∧ r.status ≤ 299

instance (r : HttpResponse) : Decidable (respOk r) := by
  unfold respOk; infer_instance

/-- External boundary functions the route handlers call:
URL validation (`validateInstanceUrl`, yielding the origin on success),
`new Date(s).getTime()` (none for NaN), and `toISOString` of a parsed
instant. -/
structure JsEnv where
  validate : String → Option String
  parseMs : String → Option Int
  isoOf : Int → String

/-- Outcome of the `sendStatus` adapter call. -/
inductive SendResult where
  | ok (remoteId : String)
  | err (error : String)
deriving DecidableEq, Repr

/-- Response classification of `sendStatus` (posts module): network failure,
401/403 token rejection, other non-2xx, then JSON extraction of the new
status id.  `parseId s` models `JSON.parse` plus the id extraction: `none`
when the body is not JSON, `some ""` when `id` is missing or not a string. -/
def sendStatusResult (resp : Option HttpResponse) (parseId : String → Option String) :
    SendResult :=
  match resp with
  | none => .err "network_error"
  | some r =>
    if r.status = 401 ∨ r.status = 403 then .err "token_rejected"
    else if ¬ respOk r then .err ("status_post_failed_" ++ toString r.status)
    else
      match parseId r.body with
      | none => .err "invalid_response"
      | some id => if id = "" then .err "invalid_response" else .ok id

/-- Raw fields extracted from a verify_credentials JSON body; each string is
`""` when the field is missing or not a string, matching the code's
`typeof x === "string" ? x : ""` defaults. -/
structure RawAccount where
  id : String
  username : String
  acct : String
  displayName : String
  avatar : String
deriving DecidableEq, Repr

/-- Response classification of `getVerifiedAccount` (auth module).
`parseAccount` models `JSON.parse` plus field extraction (`none` = body not
valid JSON). -/
def verifyClassify (resp : Option HttpResponse)
    (parseAccount : String → Option RawAccount) :
    Except String AccountIdentity :=
  match resp with
  | none => .error "Failed to verify account"
  | some r =>
    if r.status = 401 ∨ r.status = 403 then .error "token rejected"
    else if ¬ respOk r then
      .error ("Verify credentials failed (" ++ toString r.status ++ ")"
        ++ (if (r.body.take 300).trim = "" then "" else ": " ++ (r.body.take 300).trim))
    else
      match parseAccount r.body with
      | none => .error "Instance returned non-JSON verify response"
      | some raw =>
        if raw.id = "" ∨ raw.username = "" ∨ raw.acct = "" then
          .error "Instance returned unexpected verify response"
        else
          .ok { id := raw.id, username := raw.username, acct := raw.acct,
                displayName := raw.displayName,
                avatar := if raw.avatar = "" then none else some raw.avatar }

/-- `getCurrentAccountIdForOrigin`: `identityStore?.get(origin)?.id`. -/
def currentAccountId (identities : JsMap AccountIdentity) (origin : String) :
    Option String :=
  (mapGet identities origin).map (·.id)

/-- Body of POST /posts.  Missing fields are modelled as `""` (both are
falsy for the `!instance || !scheduledAt || !text` check); `visibility` is
the optional raw string of the request. -/
structure CreateBody where
  inst : String
  scheduledAt : String
  text : String
  visibility : Option String
deriving DecidableEq, Repr

inductive CreateResult where
  | badRequest (error : String)
  | unauthorized (error : String)
  | created (post : PlannedPost)
deriving DecidableEq, Repr

/-- The POST /posts handler (posts module), up to and including building the
new post.  `now` is `Date.now()`, `nowIso` the `toISOString` of the same
instant, `uuid` the generated id.  Persistence is the caller's step. -/
def createPost (env : JsEnv) (identities : JsMap AccountIdentity)
    (body : CreateBody) (now : Int) (nowIso uuid : String) : CreateResult :=
  if body.inst = "" ∨ body.scheduledAt = "" ∨ body.text = "" then
    .badRequest "instance, scheduledAt, and text are required"
  else
    match env.validate body.inst with
    | none => .badRequest "Invalid instanceUrl"
    | some origin =>
      match currentAccountId identities origin with
      | none => .unauthorized "Not logged in"
      | some acct =>
        if acct = "" then .unauthorized "Not logged in"
        else
          match env.parseMs body.scheduledAt with
          | none => .badRequest "scheduledAt must be a valid date string"
          | some t =>
            if t ≤ now then .badRequest "scheduledAt must be in the future"
            else if body.text.length > 500 then
              .badRequest "text must be 500 characters or less"
            else
              match body.visibility with
              | some v =>
                match parseVisibility v with
                | none =>
                  .badRequest "visibility must be public, unlisted, private, or direct"
                | some vis => .created (mkCreatedPost env origin acct body t vis nowIso uuid)
              | none => .created (mkCreatedPost env origin acct body t .pub nowIso uuid)

where
  mkCreatedPost (env : JsEnv) (origin acct : String) (body : CreateBody)
      (t : Int) (vis : Visibility) (nowIso uuid : String) : PlannedPost :=
    { id := uuid
      inst := origin
      ownerAccountId := some acct
      scheduledAt := env.isoOf t
      text := body.text
      visibility := vis
      status := .scheduled
      attempts := 0
      lastError := none
      sentAt := none
      remoteId := none
      createdAt := nowIso
      updatedAt := nowIso }

inductive ListResult where
  | badRequest (error : String)
  | unauthorized (error : String)
  | ok (posts : List PlannedPost)
deriving DecidableEq, Repr

/-- The GET /posts handler (posts module): validates the query, then filters
the store by origin, owning account, and `fromMs ≤ scheduledAt < toMs`
(a post whose scheduledAt fails to parse is excluded, as NaN comparisons
are falsy), and sorts by the scheduledAt string.  JS `Array.prototype.sort`
is stable, hence `List.mergeSort`. -/
def listPosts (env : JsEnv) (identities : JsMap AccountIdentity)
    (posts : JsMap PlannedPost) (instStr fromStr toStr : String) : ListResult :=
  if instStr = "" ∨ fromStr = "" ∨ toStr = "" then
    .badRequest "instance, from, and to are required"
  else
    match env.validate instStr with
    | none => .badRequest "Invalid instanceUrl"
    | some origin =>
      match env.parseMs fromStr, env.parseMs toStr with
      | some fromMs, some toMs =>
        match currentAccountId identities origin with
        | none => .unauthorized "Not logged in"
        | some acct =>
          if acct = "" then .unauthorized "Not logged in"
          else
            .ok ((((mapValues posts).filter (fun p => p.inst == origin)).filter
                  (fun p => p.ownerAccountId == some acct)).filter
                  (fun p =>
                    match env.parseMs p.scheduledAt with
                    | some t => decide (fromMs ≤ t ∧ t < toMs)
                    | none => false)
                |>.mergeSort (fun a b => a.scheduledAt ≤ b.scheduledAt))
      | _, _ => .badRequest "from and to must be valid date strings"

/-- Body of PATCH /posts/:id.  A field is `some s` when the key is present
with string value `s`, `none` when absent (non-string runtime values are
outside this embedding). -/
structure UpdateBody where
  scheduledAt : Option String
  text : Option String
  visibility : Option String
  status : Option String
deriving DecidableEq, Repr

inductive UpdateResult where
  | notFound (error : String)
  | unauthorized (error : String)
  | forbidden (error : String)
  | badRequest (error : String)
  | updated (post : PlannedPost)
deriving DecidableEq, Repr

def UpdateResult.isBadRequest : UpdateResult → Bool
  | .badRequest _ => true
  | _ => false

/-- The PATCH /posts/:id handler (posts module).  The handler mutates the
stored post object in place, field by field, in the order text, visibility,
status, scheduledAt; an early validation `return` therefore leaves the
mutations made so far visible in the store.  The second component is the
posts map as the handler leaves it (on every exit path). -/
def updatePost (env : JsEnv) (identities : JsMap AccountIdentity)
    (posts : JsMap PlannedPost) (id : String) (body : UpdateBody)
    (now : Int) (nowIso : String) : UpdateResult × JsMap PlannedPost :=
  match mapGet posts id with
  | none => (.notFound "Post not found", posts)
  | some post =>
    match currentAccountId identities post.inst with
    | none => (.unauthorized "Not logged in", posts)
    | some acct =>
      if acct = "" then (.unauthorized "Not logged in", posts)
      else if post.ownerAccountId.getD "" = "" ∨ post.ownerAccountId ≠ some acct then
        (.forbidden "Forbidden for this account", posts)
      else if body.scheduledAt = none ∧ body.text = none ∧ body.visibility = none
          ∧ body.status = none then
        (.badRequest "No valid fields to update", posts)
      else
        -- text step
        match body.text with
        | some tx =>
          if tx.length > 500 then
            (.badRequest "text must be 500 characters or less", mapSet posts id post)
          else stepVisibility env posts id body { post with text := tx } now nowIso
        | none => stepVisibility env posts id body post now nowIso

where
  stepVisibility (env : JsEnv) (posts : JsMap PlannedPost) (id : String)
      (body : UpdateBody) (post : PlannedPost) (now : Int) (nowIso : String) :
      UpdateResult × JsMap PlannedPost :=
    match body.visibility with
    | some v =>
      match parseVisibility v with
      | none =>
        (.badRequest "visibility must be public, unlisted, private, or direct",
         mapSet posts id post)
      | some vis => stepStatus env posts id body { post with visibility := vis } now nowIso
    | none => stepStatus env posts id body post now nowIso

  stepStatus (env : JsEnv) (posts : JsMap PlannedPost) (id : String)
      (body : UpdateBody) (post : PlannedPost) (now : Int) (nowIso : String) :
      UpdateResult × JsMap PlannedPost :=
    match body.status with
    | some s =>
      match parseStatus s with
      | none =>
        (.badRequest "status must be draft, scheduled, sent, or canceled",
         mapSet posts id post)
      | some st => stepScheduledAt env posts id body { post with status := st } now nowIso
    | none => stepScheduledAt env posts id body post now nowIso

  stepScheduledAt (env : JsEnv) (posts : JsMap PlannedPost) (id : String)
      (body : UpdateBody) (post : PlannedPost) (now : Int) (nowIso : String) :
      UpdateResult × JsMap PlannedPost :=
    match body.scheduledAt with
    | some s =>
      match env.parseMs s with
      | none =>
        (.badRequest "scheduledAt must be a valid date string", mapSet posts id post)
      | some t =>
        -- nextStatus = updates.status ?? post.status; at this point the status
        -- step has already written updates.status into the post when present.
        if post.status = .scheduled ∧ t ≤ now then
          (.badRequest "scheduledAt must be in the future unless status is draft",
           mapSet posts id post)
        else
          finishUpdate posts id { post with scheduledAt := env.isoOf t } nowIso
    | none => finishUpdate posts id post nowIso

  finishUpdate (posts : JsMap PlannedPost) (id : String) (post : PlannedPost)
      (nowIso : String) : UpdateResult × JsMap PlannedPost :=
    let post' := { post with updatedAt := nowIso }
    (.updated post', mapSet posts id post')

inductive DeleteResult where
  | notFound (error : String)
  | unauthorized (error : String)
  | forbidden (error : String)
  | ok
deriving DecidableEq, Repr

/-- The DELETE /posts/:id handler (posts module). -/
def deletePost (identities : JsMap AccountIdentity) (posts : JsMap PlannedPost)
    (id : String) : DeleteResult × JsMap PlannedPost :=
  match mapGet posts id with
  | none => (.notFound "Post not found", posts)
  | some post =>
    match currentAccountId identities post.inst with
    | none => (.unauthorized "Not logged in", posts)
    | some acct =>
      if acct = "" then (.unauthorized "Not logged in", posts)
      else if post.ownerAccountId.getD "" = "" ∨ post.ownerAccountId ≠ some acct then
        (.forbidden "Forbidden for this account", posts)
      else (.ok, mapDelete posts id)

/-- The mutable state the scheduler tick works on: the posts store plus the
token and identity stores shared with the auth module. -/
structure SysState where
  posts : JsMap PlannedPost
  tokens : JsMap TokenRecord
  identities : JsMap AccountIdentity
deriving DecidableEq, Repr

/-- Per-tick environment: the clock, and the stub delivery adapter — the
fetch outcome of the POST /api/v1/statuses call for a given post id, plus
the JSON id extraction. -/
structure TickEnv where
  now : Int
  nowIso : String
  resp : String → Option HttpResponse
  parseId : String → Option String

/-- One iteration of the scheduler's dispatch loop (posts module) for a post
taken from the `sendingPosts` snapshot: resolve the owner account, the
cached identity and the token, call `sendStatus`, and record the outcome;
a `token_rejected` error additionally deletes the token and identity for
the post's origin. -/
def failedPost (p : PlannedPost) (e : String) (nowIso : String) : PlannedPost :=
  { p with status := .failed, lastError := some e,
           attempts := p.attempts + 1, updatedAt := nowIso }

def sentPost (p : PlannedPost) (rid : String) (nowIso : String) : PlannedPost :=
  { p with status := .sent, sentAt := some nowIso,
           remoteId := some rid, lastError := none, updatedAt := nowIso }

def dispatchStep (te : TickEnv) (st : SysState) (p : PlannedPost) : SysState :=
  let cur := (currentAccountId st.identities p.inst).getD ""
  if p.ownerAccountId.getD "" = "" then
    { st with posts := mapSet st.posts p.id (failedPost p "missing_owner_account" te.nowIso) }
  else if cur = "" ∨ p.ownerAccountId ≠ some cur then
    { st with posts := mapSet st.posts p.id (failedPost p "account_mismatch" te.nowIso) }
  else
    match mapGet st.tokens p.inst with
    | none =>
      { st with posts := mapSet st.posts p.id (failedPost p "not_logged_in" te.nowIso) }
    | some _ =>
      match sendStatusResult (te.resp p.id) te.parseId with
      | .ok rid =>
        { st with posts := mapSet st.posts p.id (sentPost p rid te.nowIso) }
      | .err e =>
        let st' := { st with posts := mapSet st.posts p.id (failedPost p e te.nowIso) }
        if e = "token_rejected" then
          { st' with tokens := mapDelete st'.tokens p.inst,
                     identities := mapDelete st'.identities p.inst }
        else st'

/-- One scheduler tick (posts module): collect due posts, mark them
`sending` (persist point), then run the dispatch loop over every post that
is in `sending` status. -/
def schedulerTick (env : JsEnv) (te : TickEnv) (st : SysState) : SysState :=
  let due := (mapValues st.posts).filter (fun p =>
    p.status == PostStatus.scheduled &&
      match env.parseMs p.scheduledAt with
      | some t => decide (t ≤ te.now)
      | none => false)
  if due.isEmpty then st
  else
    let posts1 := due.foldl (fun m p =>
      mapSet m p.id ({ p with status := .sending, updatedAt := te.nowIso })) st.posts
    let sending := (mapValues posts1).filter (fun p => p.status == PostStatus.sending)
    sending.foldl (fun s p => dispatchStep te s p) { st with posts := posts1 }

/-- An operation of the post lifecycle: an HTTP mutation or a scheduler
tick, each carrying the clock values and adapter outcomes it observes. -/
inductive Op where
  | create (body : CreateBody) (now : Int) (nowIso uuid : String)
  | update (id : String) (body : UpdateBody) (now : Int) (nowIso : String)
  | erase (id : String)
  | tick (te : TickEnv)

/-- Effect of one operation on the shared state (the POST handler writes
the new post into the store; PATCH leaves the store as the handler leaves
it on every exit path; DELETE removes; a tick runs the scheduler). -/
def applyOp (env : JsEnv) (st : SysState) : Op → SysState
  | .create body now nowIso uuid =>
    match createPost env st.identities body now nowIso uuid with
    | .created p => { st with posts := mapSet st.posts p.id p }
    | _ => st
  | .update id body now nowIso =>
    { st with posts := (updatePost env st.identities st.posts id body now nowIso).2 }
  | .erase id => { st with posts := (deletePost st.identities st.posts id).2 }
  | .tick te => schedulerTick env te st

def applyOps (env : JsEnv) (st : SysState) (ops : List Op) : SysState :=
  ops.foldl (applyOp env) st

/-- Fields extracted from a token-exchange JSON body: `access_token` is
`""` when missing or not a string, the optional fields are `none` then. -/
structure TokenBody where
  accessToken : String
  tokenType : Option String
  scope : Option String
deriving DecidableEq, Repr

/-- Environment of one GET /auth/callback request: the clock, the fetch
outcome of the token exchange POST, the JSON reading of its body (`none`
= not valid JSON), the fetch outcome of verify_credentials and the JSON
reading of that body. -/
structure CallbackEnv where
  now : Int
  nowIso : String
  exchangeResp : Option HttpResponse
  parseTokenBody : String → Option TokenBody
  verifyResp : Option HttpResponse
  parseAccount : String → Option RawAccount

inductive CallbackResult where
  | badRequest (error : String)
  | upstream (error : String)
  | success (origin : String) (account : AccountIdentity)
deriving DecidableEq, Repr

/-- `getToken` (auth module): the form-encoded POST to /oauth/token and its
outcome classification. -/
def getTokenResult (resp : Option HttpResponse) : Except String String :=
  match resp with
  | none => .error "Failed to reach instance"
  | some r =>
    if ¬ respOk r then
      .error ("Token exchange failed (" ++ toString r.status ++ ")"
        ++ (if (r.body.take 300).trim = "" then "" else ": " ++ (r.body.take 300).trim))
    else .ok r.body

/-- ClientRegistration record, keyed by "origin::clientId". -/
structure ClientRegistration where
  clientSecret : String
  redirectUri : String
deriving DecidableEq, Repr

/-- The GET /auth/callback handler (auth module), in-memory effect: returns
the reply classification together with the pending-state, identity and
token maps as the handler leaves them.  The persistence write and the HTML
redirect document are outside this embedding (both happen after the store
mutations). -/
def callbackHandler (ce : CallbackEnv)
    (registrations : JsMap ClientRegistration)
    (pending : JsMap PendingState)
    (identities : JsMap AccountIdentity) (tokens : JsMap TokenRecord)
    (code state : String) :
    CallbackResult × JsMap PendingState × JsMap AccountIdentity × JsMap TokenRecord :=
  if code = "" ∨ state = "" then
    (.badRequest "code and state are required", pending, identities, tokens)
  else
    match mapGet pending state with
    | none => (.badRequest "Invalid or expired state", pending, identities, tokens)
    | some entry =>
      if ce.now - entry.createdAt > 10 * 60 * 1000 then
        (.badRequest "expired state", mapDelete pending state, identities, tokens)
      else
        let pending' := mapDelete pending state
        match mapGet registrations (entry.origin ++ "::" ++ entry.clientId) with
        | none =>
          (.badRequest "Missing client secret for this clientId", pending', identities, tokens)
        | some _ =>
          match getTokenResult ce.exchangeResp with
          | .error e => (.upstream e, pending', identities, tokens)
          | .ok tokenText =>
            match ce.parseTokenBody tokenText with
            | none =>
              (.upstream "Instance returned non-JSON response", pending', identities, tokens)
            | some tb =>
              if tb.accessToken = "" then
                (.upstream "Instance returned unexpected token response",
                 pending', identities, tokens)
              else
                match verifyClassify ce.verifyResp ce.parseAccount with
                | .error e => (.upstream e, pending', identities, tokens)
                | .ok account =>
                  (.success entry.origin account,
                   pending',
                   mapSet identities entry.origin account,
                   mapSet tokens entry.origin
                     { accessToken := tb.accessToken, tokenType := tb.tokenType,
                       scope := tb.scope, updatedAt := ce.nowIso })

/-- Environment of one GET /auth/me request: fetch outcome of the
verify_credentials call and the JSON reading of its body. -/
structure MeEnv where
  verifyResp : Option HttpResponse
  parseAccount : String → Option RawAccount

inductive MeResult where
  | badRequest (error : String)
  | notLoggedIn
  | upstream (error : String)
  | ok (account : AccountIdentity)
deriving DecidableEq, Repr

/-- The GET /auth/me handler (auth module), in-memory effect on the
identity and token stores. -/
def meHandler (env : JsEnv) (me : MeEnv)
    (identities : JsMap AccountIdentity) (tokens : JsMap TokenRecord)
    (instStr : String) :
    MeResult × JsMap AccountIdentity × JsMap TokenRecord :=
  if instStr = "" then (.badRequest "instance is required", identities, tokens)
  else
    match env.validate instStr with
    | none => (.badRequest "Invalid instanceUrl", identities, tokens)
    | some origin =>
      match mapGet identities origin with
      | some account => (.ok account, identities, tokens)
      | none =>
        match mapGet tokens origin with
        | none => (.notLoggedIn, identities, tokens)
        | some _ =>
          match verifyClassify me.verifyResp me.parseAccount with
          | .error e =>
            if e = "token rejected" then
              (.notLoggedIn, mapDelete identities origin, mapDelete tokens origin)
            else (.upstream e, identities, tokens)
          | .ok account =>
            (.ok account, mapSet identities origin account, tokens)

/-- The POST /auth/logout handler (auth module), in-memory effect. -/
def logoutHandler (env : JsEnv)
    (identities : JsMap AccountIdentity) (tokens : JsMap TokenRecord)
    (instStr : String) :
    Bool × JsMap AccountIdentity × JsMap TokenRecord :=
  if instStr = "" then (false, identities, tokens)
  else
    match env.validate instStr with
    | none => (false, identities, tokens)
    | some origin => (true, mapDelete identities origin, mapDelete tokens origin)

/-- `savePostsToDisk`: the document written is `{posts: [...]}` with the
store's values in iteration order. -/
def savePostsPayload (posts : JsMap PlannedPost) : List PlannedPost :=
  mapValues posts

/-- `loadPostsFromDisk`: `none` models a missing or malformed file (empty
result) and a document whose `posts` is not an array; otherwise every array
element with a string id is inserted into the store in order. -/
def loadPostsFromData (data : Option (List PlannedPost))
    (store : JsMap PlannedPost) : JsMap PlannedPost :=
  match data with
  | none => store
  | some ps => ps.foldl (fun st p => mapSet st p.id p) store

/-- `saveAuthData`: the document holds the identity entries and the token
entries (JSON objects, i.e. key/value lists in insertion order). -/
def saveAuthPayload (identities : JsMap AccountIdentity)
    (tokens : JsMap TokenRecord) :
    List (String × AccountIdentity) × List (String × TokenRecord) :=
  (identities, tokens)

/-- `loadAuthData`: inserts every identity entry (those with a string id —
always the case in this embedding) and every token entry into the stores. -/
def loadAuthFromData
    (data : Option (List (String × AccountIdentity) × List (String × TokenRecord)))
    (identities : JsMap AccountIdentity) (tokens : JsMap TokenRecord) :
    JsMap AccountIdentity × JsMap TokenRecord :=
  match data with
  | none => (identities, tokens)
  | some (ids, toks) =>
    (ids.foldl (fun st e => mapSet st e.1 e.2) identities,
     toks.foldl (fun st e => mapSet st e.1 e.2) tokens)

/-! Lemmas about the JsMap embedding. -/

theorem mapGet_mapSet_self {α : Type} (m : JsMap α) (k : String) (v : α) :
    mapGet (mapSet m k v) k = some v := by
  unfold mapGet mapSet
  split
  · rename_i hany
    induction m with
    | nil => simp at hany
    | cons e es ih =>
      by_cases he : (e.1 == k) = true
      · rw [List.map_cons, if_pos he, List.find?_cons_of_pos _ (by simp)]
        rfl
      · simp only [List.any_cons, Bool.or_eq_true] at hany
        rcases hany with h | h
        · exact absurd h he
        · have he' : (e.1 == k) = false := by simpa using he
          rw [List.map_cons, if_neg he]
          simp only [List.find?_cons, he']
          exact ih h
  · rw [List.find?_append, List.find?_eq_none.mpr ?_, Option.none_or,
      List.find?_cons_of_pos _ (by simp)]
    · rfl
    · rename_i hany
      intro x hx
      simp only [List.any_eq_true, not_exists, not_and] at hany
      simp [hany x hx]

theorem mapGet_mapDelete_self {α : Type} (m : JsMap α) (k : String) :
    mapGet (mapDelete m k) k = none := by
  unfold mapGet mapDelete
  have hfind : List.find? (fun e => e.1 == k) (List.filter (fun e => e.1 != k) m) = none := by
    rw [List.find?_eq_none]
    intro x hx
    have hnk := List.of_mem_filter hx
    simp only [bne_iff_ne, ne_eq] at hnk
    simp [hnk]
  rw [hfind]
  rfl

theorem mem_mapValues_mapSet {α : Type} {m : JsMap α} {k : String} {v q : α}
    (h : q ∈ mapValues (mapSet m k v)) : q ∈ mapValues m ∨ q = v := by
  unfold mapValues mapSet at *
  split at h
  · simp only [List.map_map, List.mem_map, Function.comp] at h
    obtain ⟨e, he, hq⟩ := h
    by_cases hk : (e.1 == k) = true
    · right
      rw [if_pos hk] at hq
      exact hq.symm
    · left
      rw [if_neg hk] at hq
      exact List.mem_map.mpr ⟨e, he, hq⟩
  · simp only [List.map_append, List.mem_append, List.map_cons, List.map_nil,
      List.mem_cons, List.not_mem_nil, or_false] at h
    exact h

theorem mapSet_eq_append {α : Type} {m : JsMap α} {k : String}
    (h : ∀ e ∈ m, e.1 ≠ k) (v : α) : mapSet m k v = m ++ [(k, v)] := by
  unfold mapSet
  rw [if_neg]
  simp only [List.any_eq_true, not_exists, not_and, Bool.not_eq_true]
  intro e he
  exact beq_eq_false_iff_ne.mpr (h e he)

/-- Re-inserting a list of entries with pairwise-distinct keys, none already
present, appends them in order. -/
theorem foldl_mapSet_of_nodup {α : Type} (entries : List (String × α)) :
    ∀ (acc : JsMap α),
      (∀ e ∈ entries, ∀ a ∈ acc, a.1 ≠ e.1) →
      (entries.map (·.1)).Nodup →
      entries.foldl (fun st e => mapSet st e.1 e.2) acc = acc ++ entries := by
  induction entries with
  | nil => intro acc _ _; simp
  | cons e es ih =>
    intro acc hdisj hnd
    simp only [List.foldl_cons]
    rw [mapSet_eq_append (fun a ha => hdisj e (by simp) a ha) e.2]
    simp only [List.map_cons, List.nodup_cons] at hnd
    rw [ih (acc ++ [(e.1, e.2)]) ?_ hnd.2]
    · simp
    · intro f hf a ha
      rcases List.mem_append.mp ha with ha | ha
      · exact hdisj f (by simp [hf]) a ha
      · simp only [List.mem_singleton] at ha
        subst ha
        intro hcon
        exact hnd.1 (hcon ▸ List.mem_map.mpr ⟨f, hf, rfl⟩)

/-! Concrete fixtures used by the witness theorems. -/

namespace Sample

def origin : String := "https://mastodon.example"

def identW : AccountIdentity :=
  { id := "acct-1", username := "u", acct := "u@m", displayName := "U", avatar := none }

def tokenW : TokenRecord :=
  { accessToken := "tok", tokenType := none, scope := none, updatedAt := "t0" }

/-- A post already marked `sending`, owned by acct-1, due in the past. -/
def postW : PlannedPost :=
  { id := "p1", inst := origin, ownerAccountId := some "acct-1",
    scheduledAt := "2020", text := "Hello", visibility := .pub,
    status := .sending, attempts := 0, lastError := none, sentAt := none,
    remoteId := none, createdAt := "t0", updatedAt := "t0" }

def stW : SysState :=
  { posts := [("p1", postW)], tokens := [(origin, tokenW)],
    identities := [(origin, identW)] }

/-- Boundary functions: the identity URL validation (nonempty strings map to
themselves), a Date parse that knows two strings, and a numeric ISO form. -/
def env : JsEnv :=
  { validate := fun s => if s = "" then none else some s,
    parseMs := fun s => if s = "2020" then some 10
      else if s = "2030" then some 2000
      else if s = "2040" then some 3000 else none,
    isoOf := fun t => toString t }

/-- Stub adapter: delivery succeeds with remote id "123". -/
def teOk : TickEnv :=
  { now := 100, nowIso := "t1", resp := fun _ => some { status := 200, body := "{}" },
    parseId := fun _ => some "123" }

/-- Stub adapter: delivery fetch returns HTTP 401. -/
def teRej : TickEnv :=
  { now := 100, nowIso := "t1", resp := fun _ => some { status := 401, body := "" },
    parseId := fun _ => none }

/-- Verify_credentials answers HTTP 401. -/
def meRej : MeEnv :=
  { verifyResp := some { status := 401, body := "" }, parseAccount := fun _ => none }

/-- A scheduled post owned by acct-1. -/
def postSched : PlannedPost :=
  { id := "p2", inst := origin, ownerAccountId := some "acct-1",
    scheduledAt := "2030", text := "Hi", visibility := .pub,
    status := .scheduled, attempts := 0, lastError := none, sentAt := none,
    remoteId := none, createdAt := "t0", updatedAt := "t0" }

def postsSched : JsMap PlannedPost := [("p2", postSched)]

/-- Create body with a past scheduledAt. -/
def bodyCreatePast : CreateBody :=
  { inst := origin, scheduledAt := "2020", text := "Hi", visibility := none }

/-- PATCH body: only scheduledAt, set to a past instant. -/
def bodyPast : UpdateBody :=
  { scheduledAt := some "2020", text := none, visibility := none, status := none }

/-- PATCH body: scheduledAt set to a past instant together with
status=draft. -/
def bodyPastDraft : UpdateBody :=
  { scheduledAt := some "2020", text := none, visibility := none,
    status := some "draft" }

/-- PATCH body: new text and visibility plus a past scheduledAt. -/
def bodyC10 : UpdateBody :=
  { scheduledAt := some "2020", text := some "New text",
    visibility := some "direct", status := none }

/-- Initial state for the C7 scenarios: empty posts and tokens, acct-1
logged in. -/
def stC7 : SysState := { posts := [], tokens := [], identities := [(origin, identW)] }

def bodyCreateC7 : CreateBody :=
  { inst := origin, scheduledAt := "2030", text := "Hello", visibility := none }

/-- PATCH body setting only status="sent". -/
def bodySent : UpdateBody :=
  { scheduledAt := none, text := none, visibility := none, status := some "sent" }

def opsC7 : List Op := [Op.create bodyCreateC7 0 "t0" "p9", Op.update "p9" bodySent 0 "t2"]

/-- Two posts with the same scheduledAt; the store holds id "b" first. -/
def postA : PlannedPost :=
  { id := "a", inst := origin, ownerAccountId := some "acct-1",
    scheduledAt := "2030", text := "A", visibility := .pub,
    status := .scheduled, attempts := 0, lastError := none, sentAt := none,
    remoteId := none, createdAt := "t0", updatedAt := "t0" }

def postB : PlannedPost :=
  { id := "b", inst := origin, ownerAccountId := some "acct-1",
    scheduledAt := "2030", text := "B", visibility := .pub,
    status := .scheduled, attempts := 0, lastError := none, sentAt := none,
    remoteId := none, createdAt := "t0", updatedAt := "t0" }

def postsTie : JsMap PlannedPost := [("b", postB), ("a", postA)]

/-- A pending OAuth state created at instant 0. -/
def entryW : PendingState :=
  { origin := origin, clientId := "cid", createdAt := 0, redirectUri := none }

def pendingW : JsMap PendingState := [("st1", entryW)]

/-- Callback environment whose token exchange fails to reach the instance. -/
def ceFail : CallbackEnv :=
  { now := 1000, nowIso := "t1", exchangeResp := none,
    parseTokenBody := fun _ => none, verifyResp := none,
    parseAccount := fun _ => none }

/-- Callback environment arriving 10 minutes and 1 ms after issue. -/
def ceLate : CallbackEnv :=
  { now := 10 * 60 * 1000 + 1, nowIso := "t1", exchangeResp := none,
    parseTokenBody := fun _ => none, verifyResp := none,
    parseAccount := fun _ => none }

end Sample

/-- With owner, identity and token resolved, a dispatch iteration reduces to
the two outcome branches of the send call. -/
theorem dispatchStep_eq_outcome (te : TickEnv) (st : SysState) (p : PlannedPost)
    (owner : String)
    (hOwner : p.ownerAccountId = some owner) (hOwnerNe : owner ≠ "")
    (hIdent : currentAccountId st.identities p.inst = some owner)
    (hTok : (mapGet st.tokens p.inst).isSome = true) :
    dispatchStep te st p =
      match sendStatusResult (te.resp p.id) te.parseId with
      | .ok rid => { st with posts := mapSet st.posts p.id (sentPost p rid te.nowIso) }
      | .err e =>
        let st' := { st with posts := mapSet st.posts p.id (failedPost p e te.nowIso) }
        if e = "token_rejected" then
          { st' with tokens := mapDelete st'.tokens p.inst,
                     identities := mapDelete st'.identities p.inst }
        else st' := by
  obtain ⟨tok, htok⟩ := Option.isSome_iff_exists.mp hTok
  simp only [dispatchStep, hOwner, hIdent, Option.getD_some, htok]
  rw [if_neg (by simp [hOwnerNe]), if_neg (by simp [hOwnerNe])]

/-- A 401 or 403 delivery response is classified `token_rejected`. -/
theorem sendStatusResult_rejected (r : HttpResponse)
    (parseId : String → Option String) (hRej : r.status = 401 ∨ r.status = 403) :
    sendStatusResult (some r) parseId = .err "token_rejected" := by
  simp only [sendStatusResult]
  rw [if_pos hRej]

/-- A 401 or 403 verify_credentials response is classified `token rejected`. -/
theorem verifyClassify_rejected (r : HttpResponse)
    (parseAccount : String → Option RawAccount)
    (hRej : r.status = 401 ∨ r.status = 403) :
    verifyClassify (some r) parseAccount = .error "token rejected" := by
  simp only [verifyClassify]
  rw [if_pos hRej]

/-- With no cached identity and no token for the requested origin, GET
/auth/me answers 401 Not logged in and leaves the stores unchanged. -/
theorem meHandler_notLoggedIn (env : JsEnv) (me : MeEnv)
    (ids : JsMap AccountIdentity) (toks : JsMap TokenRecord)
    (instStr origin : String)
    (hne : instStr ≠ "") (hval : env.validate instStr = some origin)
    (hid : mapGet ids origin = none) (htk : mapGet toks origin = none) :
    meHandler env me ids toks instStr = (.notLoggedIn, ids, toks) := by
  unfold meHandler
  rw [if_neg hne, hval]
  simp only [hid, htk]

/-- C1: for a post processed in the scheduler's dispatch phase with its
owner account resolved (recorded owner present and matching the cached
identity) and a token present, the recorded outcome is: on adapter success,
status `sent`, `sentAt` = the current instant, `remoteId` from the
response, `lastError` cleared; on adapter failure, status `failed`,
`attempts` incremented by exactly one, `lastError` = the adapter's error
code. -/
theorem c1_dispatch_outcome (te : TickEnv) (st : SysState) (p : PlannedPost)
    (owner : String)
    (hOwner : p.ownerAccountId = some owner) (hOwnerNe : owner ≠ "")
    (hIdent : currentAccountId st.identities p.inst = some owner)
    (hTok : (mapGet st.tokens p.inst).isSome = true) :
    (∀ rid, sendStatusResult (te.resp p.id) te.parseId = .ok rid →
      mapGet (dispatchStep te st p).posts p.id =
        some { p with status := .sent, sentAt := some te.nowIso,
                      remoteId := some rid, lastError := none,
                      updatedAt := te.nowIso }) ∧
    (∀ e, sendStatusResult (te.resp p.id) te.parseId = .err e →
      mapGet (dispatchStep te st p).posts p.id =
        some { p with status := .failed, attempts := p.attempts + 1,
                      lastError := some e, updatedAt := te.nowIso }) := by
  have hstep := dispatchStep_eq_outcome te st p owner hOwner hOwnerNe hIdent hTok
  constructor
  · intro rid hres
    rw [hstep, hres]
    simp [mapGet_mapSet_self, sentPost]
  · intro e hres
    rw [hstep, hres]
    by_cases he : e = "token_rejected"
    · simp [he, mapGet_mapSet_self, failedPost]
    · simp [he, mapGet_mapSet_self, failedPost]

/-- Witness for C1 at the Sample fixtures: a successful delivery records the
sent outcome, an HTTP 401 delivery records the failed outcome with one
added attempt. -/
theorem c1_dispatch_outcome_witness :
    mapGet (dispatchStep Sample.teOk Sample.stW Sample.postW).posts "p1" =
      some { Sample.postW with status := .sent, sentAt := some "t1",
                               remoteId := some "123", lastError := none,
                               updatedAt := "t1" } ∧
    mapGet (dispatchStep Sample.teRej Sample.stW Sample.postW).posts "p1" =
      some { Sample.postW with status := .failed, attempts := 1,
                               lastError := some "token_rejected",
                               updatedAt := "t1" } := by
  constructor
  · exact (c1_dispatch_outcome Sample.teOk Sample.stW Sample.postW "acct-1"
      rfl (by decide) rfl rfl).1 "123" (by decide)
  · exact (c1_dispatch_outcome Sample.teRej Sample.stW Sample.postW "acct-1"
      rfl (by decide) rfl rfl).2 "token_rejected" (by decide)

/-- C2: when the remote API answers 401/403 (rejected token) — during a
scheduler delivery, or during identity re-verification in GET /auth/me —
the token record and the account identity for that origin are deleted in
the same operation, and a subsequent GET /auth/me for that origin answers
401 Not logged in. -/
theorem c2_token_rejection_cascade (env : JsEnv) (te : TickEnv) (st : SysState)
    (p : PlannedPost) (owner : String) (r : HttpResponse)
    (hOwner : p.ownerAccountId = some owner) (hOwnerNe : owner ≠ "")
    (hIdent : currentAccountId st.identities p.inst = some owner)
    (hTok : (mapGet st.tokens p.inst).isSome = true)
    (hResp : te.resp p.id = some r) (hRej : r.status = 401 ∨ r.status = 403)
    (hInst : p.inst ≠ "") (hVal : env.validate p.inst = some p.inst) :
    (mapGet (dispatchStep te st p).tokens p.inst = none ∧
     mapGet (dispatchStep te st p).identities p.inst = none ∧
     ∀ me : MeEnv, meHandler env me (dispatchStep te st p).identities
         (dispatchStep te st p).tokens p.inst =
       (.notLoggedIn, (dispatchStep te st p).identities, (dispatchStep te st p).tokens)) ∧
    (∀ (ids : JsMap AccountIdentity) (toks : JsMap TokenRecord)
       (instStr origin : String) (me : MeEnv) (r2 : HttpResponse),
      instStr ≠ "" → env.validate instStr = some origin →
      mapGet ids origin = none → (mapGet toks origin).isSome = true →
      me.verifyResp = some r2 → (r2.status = 401 ∨ r2.status = 403) →
      meHandler env me ids toks instStr =
        (.notLoggedIn, mapDelete ids origin, mapDelete toks origin) ∧
      mapGet (mapDelete ids origin) origin = none ∧
      mapGet (mapDelete toks origin) origin = none ∧
      ∀ me2 : MeEnv,
        meHandler env me2 (mapDelete ids origin) (mapDelete toks origin) instStr =
          (.notLoggedIn, mapDelete ids origin, mapDelete toks origin)) := by
  constructor
  · have hstep := dispatchStep_eq_outcome te st p owner hOwner hOwnerNe hIdent hTok
    rw [hResp, sendStatusResult_rejected r te.parseId hRej] at hstep
    simp only [reduceIte] at hstep
    rw [hstep]
    refine ⟨mapGet_mapDelete_self _ _, mapGet_mapDelete_self _ _, fun me => ?_⟩
    exact meHandler_notLoggedIn env me _ _ p.inst p.inst hInst hVal
      (mapGet_mapDelete_self _ _) (mapGet_mapDelete_self _ _)
  · intro ids toks instStr origin me r2 hne hval hid htk hvr hrej2
    obtain ⟨tok, htok⟩ := Option.isSome_iff_exists.mp htk
    have hme : meHandler env me ids toks instStr =
        (.notLoggedIn, mapDelete ids origin, mapDelete toks origin) := by
      unfold meHandler
      rw [if_neg hne, hval]
      simp only [hid, htok, hvr, verifyClassify_rejected r2 me.parseAccount hrej2]
      simp
    refine ⟨hme, mapGet_mapDelete_self _ _, mapGet_mapDelete_self _ _, fun me2 => ?_⟩
    exact meHandler_notLoggedIn env me2 _ _ instStr origin hne hval
      (mapGet_mapDelete_self _ _) (mapGet_mapDelete_self _ _)

/-- Witness for C2 at the Sample fixtures: a 401 delivery deletes both
stores and the next /me answers Not logged in; a 401 re-verification in
/me does the same. -/
theorem c2_token_rejection_cascade_witness :
    (mapGet (dispatchStep Sample.teRej Sample.stW Sample.postW).tokens Sample.origin = none ∧
     mapGet (dispatchStep Sample.teRej Sample.stW Sample.postW).identities Sample.origin = none) ∧
    meHandler Sample.env Sample.meRej
      [] [(Sample.origin, Sample.tokenW)] Sample.origin =
      (.notLoggedIn, [], []) := by
  have h := c2_token_rejection_cascade Sample.env Sample.teRej Sample.stW
    Sample.postW "acct-1" { status := 401, body := "" }
    rfl (by decide) rfl rfl rfl (Or.inl rfl) (by decide) rfl
  refine ⟨⟨h.1.1, h.1.2.1⟩, ?_⟩
  have h2 := h.2 [] [(Sample.origin, Sample.tokenW)] Sample.origin Sample.origin
    Sample.meRej { status := 401, body := "" }
    (by decide) rfl rfl rfl rfl (Or.inl rfl)
  have h21 := h2.1
  rw [h21]
  rfl

/-- The result is a freshly created scheduled post: status `scheduled`,
zero attempts, `createdAt` equal to `updatedAt`. -/
def CreateResult.isScheduledFresh : CreateResult → Prop
  | .created p => p.status = .scheduled ∧ p.attempts = 0 ∧ p.createdAt = p.updatedAt
  | _ => False

instance (r : CreateResult) : Decidable (r.isScheduledFresh) := by
  unfold CreateResult.isScheduledFresh
  cases r <;> infer_instance

/-- Counterexample to C3 as stated: a create request with a logged-in
owning account, `scheduledAt` strictly in the future (parse 2000 > now 0),
text of length 0 ≤ 500 and omitted visibility is rejected with the
required-fields 400 — the handler's `!text` check treats the empty string
as missing — so no post with the claimed fields is returned. -/
theorem c3_create_scheduled_counterexample :
    createPost Sample.env [(Sample.origin, Sample.identW)]
      { inst := Sample.origin, scheduledAt := "2030", text := "", visibility := none }
      0 "t0" "u1"
      = .badRequest "instance, scheduledAt, and text are required" := by
  decide

/-- C3 amended: for every create request with nonempty instance,
scheduledAt and text fields (the handler rejects empty strings as missing;
URL validation and date parsing succeeding already entail the first two),
a logged-in owning account for the origin, scheduledAt strictly in the
future, text of at most 500 characters and an allowed or omitted
visibility, the returned post has status `scheduled`, attempts 0 and
`createdAt` equal to `updatedAt`. -/
theorem c3_create_scheduled_amended (env : JsEnv)
    (ids : JsMap AccountIdentity) (body : CreateBody)
    (now t : Int) (nowIso uuid origin acct : String)
    (hInst : body.inst ≠ "") (hSched : body.scheduledAt ≠ "")
    (hText : body.text ≠ "")
    (hVal : env.validate body.inst = some origin)
    (hAcct : currentAccountId ids origin = some acct) (hAcctNe : acct ≠ "")
    (hParse : env.parseMs body.scheduledAt = some t) (hFut : now < t)
    (hLen : body.text.length ≤ 500)
    (hVis : body.visibility = none ∨
      ∃ v vis, body.visibility = some v ∧ parseVisibility v = some vis) :
    (createPost env ids body now nowIso uuid).isScheduledFresh := by
  unfold createPost
  rw [if_neg (by simp [hInst, hSched, hText])]
  simp only [hVal, hAcct, hParse]
  rw [if_neg hAcctNe, if_neg (by omega), if_neg (by omega)]
  rcases hVis with hNone | ⟨v, vis, hv, hvis⟩
  · rw [hNone]
    simp [CreateResult.isScheduledFresh, createPost.mkCreatedPost]
  · simp [hv, hvis, CreateResult.isScheduledFresh, createPost.mkCreatedPost]

/-- Witness for the amended C3: a concrete valid create request yields a
fresh scheduled post. -/
theorem c3_create_scheduled_amended_witness :
    (createPost Sample.env [(Sample.origin, Sample.identW)]
      { inst := Sample.origin, scheduledAt := "2030", text := "Hello",
        visibility := none }
      0 "t0" "u1").isScheduledFresh :=
  c3_create_scheduled_amended Sample.env [(Sample.origin, Sample.identW)]
    { inst := Sample.origin, scheduledAt := "2030", text := "Hello",
      visibility := none }
    0 2000 "t0" "u1" Sample.origin "acct-1"
    (by decide) (by decide) (by decide) rfl rfl (by decide) rfl (by decide)
    (by decide) (Or.inl rfl)

def UpdateResult.isUpdated : UpdateResult → Bool
  | .updated _ => true
  | _ => false

/-- With the post found, the caller the owner, and the text, visibility and
status parts of the body each absent or valid, the PATCH handler reduces to
its scheduledAt step on the post with those three fields applied. -/
theorem updatePost_steps (env : JsEnv) (ids : JsMap AccountIdentity)
    (posts : JsMap PlannedPost) (id : String) (body : UpdateBody)
    (now : Int) (nowIso : String) (post : PlannedPost) (acct : String)
    (hpost : mapGet posts id = some post)
    (hacct : currentAccountId ids post.inst = some acct) (hne : acct ≠ "")
    (hown : post.ownerAccountId = some acct)
    (hHas : ¬(body.scheduledAt = none ∧ body.text = none ∧ body.visibility = none
      ∧ body.status = none))
    (htext : ∀ tx, body.text = some tx → tx.length ≤ 500)
    (hvis : ∀ v, body.visibility = some v → (parseVisibility v).isSome = true)
    (hstat : ∀ sv, body.status = some sv → (parseStatus sv).isSome = true) :
    updatePost env ids posts id body now nowIso =
      updatePost.stepScheduledAt env posts id body
        { post with
            text := body.text.getD post.text,
            visibility := (body.visibility.bind parseVisibility).getD post.visibility,
            status := (body.status.bind parseStatus).getD post.status }
        now nowIso := by
  unfold updatePost
  simp only [hpost, hacct]
  rw [if_neg hne, if_neg (by simp [hown, hne]), if_neg hHas]
  have hmid : ∀ q : PlannedPost,
      updatePost.stepVisibility env posts id body q now nowIso =
        updatePost.stepScheduledAt env posts id body
          { q with
              visibility := (body.visibility.bind parseVisibility).getD q.visibility,
              status := (body.status.bind parseStatus).getD q.status }
          now nowIso := by
    intro q
    have hst : ∀ q' : PlannedPost,
        updatePost.stepStatus env posts id body q' now nowIso =
          updatePost.stepScheduledAt env posts id body
            { q' with status := (body.status.bind parseStatus).getD q'.status }
            now nowIso := by
      intro q'
      unfold updatePost.stepStatus
      cases hsv : body.status with
      | none => simp
      | some sv =>
        obtain ⟨st, hst⟩ := Option.isSome_iff_exists.mp (hstat sv hsv)
        simp [hst]
    unfold updatePost.stepVisibility
    cases hv : body.visibility with
    | none => rw [hst q]; simp
    | some v =>
      obtain ⟨vis, hpv⟩ := Option.isSome_iff_exists.mp (hvis v hv)
      simp only [hpv]
      rw [hst]
      simp [hpv]
  cases htx : body.text with
  | none => rw [hmid post]; simp
  | some tx =>
    have hl : ¬ tx.length > 500 := by have := htext tx htx; omega
    simp only [if_neg hl, hmid]
    simp

/-- The scheduledAt step on a post whose effective status is `scheduled`,
given a parseable past instant, answers 400 and stores the post unchanged
beyond the earlier field mutations. -/
theorem stepScheduledAt_past (env : JsEnv) (posts : JsMap PlannedPost)
    (id : String) (body : UpdateBody) (post : PlannedPost)
    (now t : Int) (nowIso s : String)
    (hs : body.scheduledAt = some s) (hp : env.parseMs s = some t)
    (hpast : t ≤ now) :
    ((updatePost.stepScheduledAt env posts id body post now nowIso).1.isBadRequest
        = true ↔ post.status = .scheduled) ∧
    (post.status ≠ .scheduled →
      (updatePost.stepScheduledAt env posts id body post now nowIso).1.isUpdated
        = true) := by
  unfold updatePost.stepScheduledAt
  rw [hs]
  simp only [hp]
  by_cases hsch : post.status = .scheduled
  · rw [if_pos ⟨hsch, hpast⟩]
    simp [UpdateResult.isBadRequest, hsch]
  · rw [if_neg (by simp [hsch])]
    simp [updatePost.finishUpdate, UpdateResult.isBadRequest,
      UpdateResult.isUpdated, hsch]

/-- The scheduledAt step, when its validation fails (unparseable string, or
a past instant with effective status `scheduled`), answers 400 and leaves
the store holding exactly the post it was given (earlier mutations kept,
scheduledAt and updatedAt untouched). -/
theorem stepScheduledAt_fail_store (env : JsEnv) (posts : JsMap PlannedPost)
    (id : String) (body : UpdateBody) (post : PlannedPost)
    (now : Int) (nowIso s : String)
    (hs : body.scheduledAt = some s)
    (hfail : env.parseMs s = none ∨
      ∃ t, env.parseMs s = some t ∧ post.status = .scheduled ∧ t ≤ now) :
    (updatePost.stepScheduledAt env posts id body post now nowIso).1.isBadRequest
      = true ∧
    (updatePost.stepScheduledAt env posts id body post now nowIso).2
      = mapSet posts id post := by
  unfold updatePost.stepScheduledAt
  rw [hs]
  rcases hfail with hnone | ⟨t, hp, hsch, hpast⟩
  · simp [hnone, UpdateResult.isBadRequest]
  · simp only [hp]
    rw [if_pos ⟨hsch, hpast⟩]
    simp [UpdateResult.isBadRequest]

/-- Counterexample to C4 as stated: a create request with a past
scheduledAt (parse 10 ≤ now 100) but no logged-in account for the origin
fails with 401 Not logged in, not with a 400 validation error — the
account check runs before the date check — so "always fails with a
validation error (400), for every input" does not hold. -/
theorem c4_past_schedule_counterexample :
    createPost Sample.env []
      { inst := Sample.origin, scheduledAt := "2020", text := "Hi", visibility := none }
      100 "t1" "u2" = .unauthorized "Not logged in" := by
  decide

/-- C4 amended: creating a post with a parseable past scheduledAt fails
with the 400 future-tense validation error whenever the required fields
are nonempty, the instance validates, and an owning account is logged in
(without a logged-in account the request already fails with 401 before
the date check).  Updating a post's scheduledAt to a past instant fails
(400) exactly when the status resulting from the same request is
`scheduled`, and succeeds, other validations passing, when the resulting
status is `draft`. -/
theorem c4_past_schedule_amended (env : JsEnv) (ids : JsMap AccountIdentity) :
    (∀ (body : CreateBody) (now t : Int) (nowIso uuid origin acct : String),
      body.inst ≠ "" → body.scheduledAt ≠ "" → body.text ≠ "" →
      env.validate body.inst = some origin →
      currentAccountId ids origin = some acct → acct ≠ "" →
      env.parseMs body.scheduledAt = some t → t ≤ now →
      createPost env ids body now nowIso uuid =
        .badRequest "scheduledAt must be in the future") ∧
    (∀ (posts : JsMap PlannedPost) (id : String) (body : UpdateBody)
       (now t : Int) (nowIso s : String) (post : PlannedPost) (acct : String),
      mapGet posts id = some post →
      currentAccountId ids post.inst = some acct → acct ≠ "" →
      post.ownerAccountId = some acct →
      (∀ tx, body.text = some tx → tx.length ≤ 500) →
      (∀ v, body.visibility = some v → (parseVisibility v).isSome = true) →
      (∀ sv, body.status = some sv → (parseStatus sv).isSome = true) →
      body.scheduledAt = some s → env.parseMs s = some t → t ≤ now →
      (((updatePost env ids posts id body now nowIso).1.isBadRequest = true) ↔
          (body.status.bind parseStatus).getD post.status = .scheduled) ∧
      ((body.status.bind parseStatus).getD post.status = .draft →
        (updatePost env ids posts id body now nowIso).1.isUpdated = true)) := by
  constructor
  · intro body now t nowIso uuid origin acct hInst hSched hText hVal hAcct hAcctNe hParse hPast
    unfold createPost
    rw [if_neg (by simp [hInst, hSched, hText])]
    simp only [hVal, hAcct, hParse]
    rw [if_neg hAcctNe, if_pos hPast]
  · intro posts id body now t nowIso s post acct hpost hacct hne hown htext hvis hstat hs hp hpast
    rw [updatePost_steps env ids posts id body now nowIso post acct hpost hacct hne hown
      (by simp [hs]) htext hvis hstat]
    have hstep := stepScheduledAt_past env posts id body
      { post with
          text := body.text.getD post.text,
          visibility := (body.visibility.bind parseVisibility).getD post.visibility,
          status := (body.status.bind parseStatus).getD post.status }
      now t nowIso s hs hp hpast
    refine ⟨hstep.1, fun hdraft => hstep.2 (by simp [hdraft])⟩

/-- Witness for the amended C4: a past-dated create with a logged-in
account answers the future-tense 400; rescheduling a scheduled post into
the past answers 400, while the same reschedule combined with
status=draft succeeds. -/
theorem c4_past_schedule_amended_witness :
    createPost Sample.env [(Sample.origin, Sample.identW)] Sample.bodyCreatePast
      100 "t1" "u2" = .badRequest "scheduledAt must be in the future" ∧
    (updatePost Sample.env [(Sample.origin, Sample.identW)] Sample.postsSched "p2"
      Sample.bodyPast 100 "t1").1.isBadRequest = true ∧
    (updatePost Sample.env [(Sample.origin, Sample.identW)] Sample.postsSched "p2"
      Sample.bodyPastDraft 100 "t1").1.isUpdated = true := by
  have h := c4_past_schedule_amended Sample.env [(Sample.origin, Sample.identW)]
  refine ⟨?_, ?_, ?_⟩
  · exact h.1 Sample.bodyCreatePast 100 10 "t1" "u2" Sample.origin "acct-1"
      (by decide) (by decide) (by decide) rfl rfl (by decide) rfl (by decide)
  · exact (h.2 Sample.postsSched "p2" Sample.bodyPast
      100 10 "t1" "2020" Sample.postSched "acct-1"
      rfl rfl (by decide) rfl (by intro tx htx; cases htx) (by intro v hv; cases hv)
      (by intro sv hsv; cases hsv) rfl rfl (by decide)).1.mpr rfl
  · exact (h.2 Sample.postsSched "p2" Sample.bodyPastDraft
      100 10 "t1" "2020" Sample.postSched "acct-1"
      rfl rfl (by decide) rfl (by intro tx htx; cases htx) (by intro v hv; cases hv)
      (by intro sv hsv; injection hsv with hsv2; rw [hsv2.symm]; decide)
      rfl rfl (by decide)).2 rfl

/-- C10: PATCH /posts/:id applies text, visibility and status — in that
order, mutating the stored post as it goes — before validating
scheduledAt; when the scheduledAt part fails (unparseable, or past while
the effective status is `scheduled`) the handler answers 400 with the
earlier fields of the same request already applied to the stored post,
and scheduledAt and updatedAt untouched: the update is not atomic. -/
theorem c10_update_not_atomic (env : JsEnv) (ids : JsMap AccountIdentity)
    (posts : JsMap PlannedPost) (id : String) (body : UpdateBody)
    (now : Int) (nowIso s : String) (post : PlannedPost) (acct : String)
    (hpost : mapGet posts id = some post)
    (hacct : currentAccountId ids post.inst = some acct) (hne : acct ≠ "")
    (hown : post.ownerAccountId = some acct)
    (htext : ∀ tx, body.text = some tx → tx.length ≤ 500)
    (hvis : ∀ v, body.visibility = some v → (parseVisibility v).isSome = true)
    (hstat : ∀ sv, body.status = some sv → (parseStatus sv).isSome = true)
    (hs : body.scheduledAt = some s)
    (hfail : env.parseMs s = none ∨
      ∃ t, env.parseMs s = some t ∧
        (body.status.bind parseStatus).getD post.status = .scheduled ∧ t ≤ now) :
    (updatePost env ids posts id body now nowIso).1.isBadRequest = true ∧
    (updatePost env ids posts id body now nowIso).2 =
      mapSet posts id
        { post with
            text := body.text.getD post.text,
            visibility := (body.visibility.bind parseVisibility).getD post.visibility,
            status := (body.status.bind parseStatus).getD post.status } := by
  rw [updatePost_steps env ids posts id body now nowIso post acct hpost hacct hne hown
    (by simp [hs]) htext hvis hstat]
  refine stepScheduledAt_fail_store env posts id body _ now nowIso s hs ?_
  rcases hfail with h | ⟨t, h1, h2, h3⟩
  · exact Or.inl h
  · exact Or.inr ⟨t, h1, h2, h3⟩

/-- Witness for C10: a PATCH carrying valid text and visibility parts and a
past scheduledAt on a scheduled post answers 400, and the store now holds
the post with the new text and visibility but the old scheduledAt. -/
theorem c10_update_not_atomic_witness :
    (updatePost Sample.env [(Sample.origin, Sample.identW)] Sample.postsSched "p2"
      Sample.bodyC10 100 "t1").1.isBadRequest = true ∧
    (updatePost Sample.env [(Sample.origin, Sample.identW)] Sample.postsSched "p2"
      Sample.bodyC10 100 "t1").2 =
      mapSet Sample.postsSched "p2"
        { Sample.postSched with text := "New text", visibility := .direct } :=
  c10_update_not_atomic Sample.env [(Sample.origin, Sample.identW)]
    Sample.postsSched "p2" Sample.bodyC10 100 "t1" "2020" Sample.postSched "acct-1"
    rfl rfl (by decide) rfl
    (by intro tx htx; injection htx with h2; rw [h2.symm]; decide)
    (by intro v hv; injection hv with h2; rw [h2.symm]; decide)
    (by intro sv hsv; cases hsv)
    rfl (Or.inr ⟨10, rfl, rfl, by decide⟩)

def CallbackResult.isSuccess : CallbackResult → Bool
  | .success _ _ => true
  | _ => false

/-- Any callback request that reaches the state lookup and finds an entry
leaves the pending map with that state deleted, whatever happens later. -/
theorem callback_consumes_state (ce : CallbackEnv)
    (regs : JsMap ClientRegistration) (pending : JsMap PendingState)
    (ids : JsMap AccountIdentity) (toks : JsMap TokenRecord)
    (code state : String) (entry : PendingState)
    (hcode : code ≠ "") (hstate : state ≠ "")
    (hget : mapGet pending state = some entry) :
    (callbackHandler ce regs pending ids toks code state).2.1 =
      mapDelete pending state := by
  unfold callbackHandler
  rw [if_neg (by simp [hcode, hstate])]
  simp only [hget]
  by_cases hexp : ce.now - entry.createdAt > 10 * 60 * 1000
  · rw [if_pos hexp]
  · rw [if_neg hexp]
    repeat' split
    all_goals rfl

/-- C5: a pending OAuth state is consumed at most once.  Any callback that
reaches the state lookup (nonempty code and state, entry found) deletes
the entry from the pending map; a callback presenting a state with no
pending entry answers 400 Invalid or expired state with every store
unchanged, for every token-exchange and verification outcome — so a
consumed state can never reach the token exchange; and a callback
presenting a state older than 10 minutes answers 400 expired state and
deletes the entry without reaching the exchange. -/
theorem c5_state_single_use (regs : JsMap ClientRegistration)
    (pending : JsMap PendingState) (state : String) (entry : PendingState) :
    (∀ (ce : CallbackEnv) (ids : JsMap AccountIdentity) (toks : JsMap TokenRecord)
       (code : String), code ≠ "" → state ≠ "" →
      mapGet pending state = some entry →
      mapGet (callbackHandler ce regs pending ids toks code state).2.1 state = none) ∧
    (∀ (ce : CallbackEnv) (ids : JsMap AccountIdentity) (toks : JsMap TokenRecord)
       (code : String), code ≠ "" → state ≠ "" →
      mapGet pending state = none →
      callbackHandler ce regs pending ids toks code state =
        (.badRequest "Invalid or expired state", pending, ids, toks)) ∧
    (∀ (ce : CallbackEnv) (ids : JsMap AccountIdentity) (toks : JsMap TokenRecord)
       (code : String), code ≠ "" → state ≠ "" →
      mapGet pending state = some entry →
      ce.now - entry.createdAt > 10 * 60 * 1000 →
      callbackHandler ce regs pending ids toks code state =
        (.badRequest "expired state", mapDelete pending state, ids, toks)) := by
  refine ⟨fun ce ids toks code hcode hstate hget => ?_,
         fun ce ids toks code hcode hstate hnone => ?_,
         fun ce ids toks code hcode hstate hget hexp => ?_⟩
  · rw [callback_consumes_state ce regs pending ids toks code state entry
      hcode hstate hget]
    exact mapGet_mapDelete_self pending state
  · unfold callbackHandler
    rw [if_neg (by simp [hcode, hstate])]
    simp only [hnone]
  · unfold callbackHandler
    rw [if_neg (by simp [hcode, hstate])]
    simp only [hget]
    rw [if_pos hexp]

/-- Witness for C5 at concrete fixtures: a found state is deleted, a
missing state replays to 400 with stores unchanged, an expired state is
rejected and deleted. -/
theorem c5_state_single_use_witness :
    mapGet (callbackHandler Sample.ceFail [] Sample.pendingW [] [] "c" "st1").2.1 "st1"
      = none ∧
    callbackHandler Sample.ceFail [] [] [] [] "c" "st1" =
      (.badRequest "Invalid or expired state", [], [], []) ∧
    callbackHandler Sample.ceLate [] Sample.pendingW [] [] "c" "st1" =
      (.badRequest "expired state", mapDelete Sample.pendingW "st1", [], []) := by
  have h := c5_state_single_use [] Sample.pendingW "st1" Sample.entryW
  have h0 := c5_state_single_use [] [] "st1" Sample.entryW
  exact ⟨h.1 Sample.ceFail [] [] "c" (by decide) (by decide) rfl,
         h0.2.1 Sample.ceFail [] [] "c" (by decide) (by decide) rfl,
         h.2.2 Sample.ceLate [] [] "c" (by decide) (by decide) rfl (by decide)⟩

/-- C9: whenever GET /auth/callback fails before the persistence write —
missing/expired state, missing client registration, token-exchange
failure, non-JSON or token-less exchange body, identity-verification
failure, i.e. every non-success reply of the in-memory handler — the
identity and token maps are unchanged for every origin.  (The one failing
reply outside this statement, the 500 persist-failure, happens after the
write the claim excludes.) -/
theorem c9_callback_failure_preserves_credentials (ce : CallbackEnv)
    (regs : JsMap ClientRegistration) (pending : JsMap PendingState)
    (ids : JsMap AccountIdentity) (toks : JsMap TokenRecord)
    (code state : String)
    (h : (callbackHandler ce regs pending ids toks code state).1.isSuccess = false) :
    (callbackHandler ce regs pending ids toks code state).2.2.1 = ids ∧
    (callbackHandler ce regs pending ids toks code state).2.2.2 = toks := by
  have hcases :
      (callbackHandler ce regs pending ids toks code state).1.isSuccess = true ∨
      ((callbackHandler ce regs pending ids toks code state).2.2.1 = ids ∧
       (callbackHandler ce regs pending ids toks code state).2.2.2 = toks) := by
    unfold callbackHandler
    repeat' split
    all_goals simp [CallbackResult.isSuccess]
  rcases hcases with hs | hok
  · rw [h] at hs
    cases hs
  · exact hok

/-- Witness for C9: a callback whose token exchange cannot be reached (the
state is unknown) leaves concrete identity and token stores unchanged. -/
theorem c9_callback_failure_preserves_credentials_witness :
    (callbackHandler Sample.ceFail [] [] [(Sample.origin, Sample.identW)]
        [(Sample.origin, Sample.tokenW)] "c" "st1").2.2.1
      = [(Sample.origin, Sample.identW)] ∧
    (callbackHandler Sample.ceFail [] [] [(Sample.origin, Sample.identW)]
        [(Sample.origin, Sample.tokenW)] "c" "st1").2.2.2
      = [(Sample.origin, Sample.tokenW)] :=
  c9_callback_failure_preserves_credentials Sample.ceFail [] []
    [(Sample.origin, Sample.identW)] [(Sample.origin, Sample.tokenW)]
    "c" "st1" (by decide)

/-- C8: saving a store and reloading it into an empty store round-trips.
For the posts store this needs the store's standing invariants: every
entry is keyed by its post's id (the code only ever calls
`set(post.id, post)`) and keys are unique (a Map property).  For the auth
store only key uniqueness is needed.  The JSON encoding of the records is
the identity boundary of this embedding. -/
theorem c8_persistence_round_trip (posts : JsMap PlannedPost)
    (ids : JsMap AccountIdentity) (toks : JsMap TokenRecord)
    (hkeys : ∀ e ∈ posts, e.2.id = e.1)
    (hnd : (mapKeys posts).Nodup)
    (hndIds : (mapKeys ids).Nodup) (hndToks : (mapKeys toks).Nodup) :
    loadPostsFromData (some (savePostsPayload posts)) [] = posts ∧
    loadAuthFromData (some (saveAuthPayload ids toks)) [] [] = (ids, toks) := by
  refine ⟨?_, ?_⟩
  · show (savePostsPayload posts).foldl (fun st p => mapSet st p.id p) [] = posts
    unfold savePostsPayload mapValues
    rw [List.foldl_map]
    calc posts.foldl (fun st e => mapSet st e.2.id e.2) []
        = posts.foldl (fun st e => mapSet st e.1 e.2) [] := by
          apply List.foldl_ext
          intro st e he
          rw [hkeys e he]
      _ = [] ++ posts := foldl_mapSet_of_nodup posts []
            (by intro e _ a ha; cases ha) hnd
      _ = posts := by simp
  · show (ids.foldl (fun st e => mapSet st e.1 e.2) [],
          toks.foldl (fun st e => mapSet st e.1 e.2) []) = (ids, toks)
    rw [foldl_mapSet_of_nodup ids [] (by intro e _ a ha; cases ha) hndIds,
        foldl_mapSet_of_nodup toks [] (by intro e _ a ha; cases ha) hndToks]
    simp

/-- Witness for C8 at concrete one- and two-entry stores. -/
theorem c8_persistence_round_trip_witness :
    loadPostsFromData (some (savePostsPayload [("p1", Sample.postW), ("p2", Sample.postSched)])) []
      = [("p1", Sample.postW), ("p2", Sample.postSched)] ∧
    loadAuthFromData (some (saveAuthPayload [(Sample.origin, Sample.identW)]
        [(Sample.origin, Sample.tokenW)])) [] []
      = ([(Sample.origin, Sample.identW)], [(Sample.origin, Sample.tokenW)]) := by
  have h := c8_persistence_round_trip
    [("p1", Sample.postW), ("p2", Sample.postSched)]
    [(Sample.origin, Sample.identW)] [(Sample.origin, Sample.tokenW)]
    (by decide) (by decide) (by decide) (by decide)
  exact h

/-- The invariant of the C7 claim for one record: a sent post carries a
remote id and no lastError. -/
def SentOk (p : PlannedPost) : Prop :=
  p.status = .sent → p.remoteId.isSome = true ∧ p.lastError = none

instance (p : PlannedPost) : Decidable (SentOk p) := by
  unfold SentOk; infer_instance

/-- The invariant over a posts map. -/
def PostsMapInv (m : JsMap PlannedPost) : Prop := ∀ e ∈ m, SentOk e.2

def PostsInv (st : SysState) : Prop := PostsMapInv st.posts

/-- Operations under which the invariant is claimed: everything except a
PATCH whose status field is the literal "sent". -/
def OpSafe : Op → Prop
  | .update _ b _ _ => b.status ≠ some "sent"
  | _ => True

theorem mem_mapSet {α : Type} {m : JsMap α} {k : String} {v : α}
    {e : String × α} (h : e ∈ mapSet m k v) : e ∈ m ∨ e = (k, v) := by
  unfold mapSet at h
  split at h
  · rcases List.mem_map.mp h with ⟨f, hf, hfe⟩
    by_cases hk : (f.1 == k) = true
    · right
      rw [if_pos hk] at hfe
      exact hfe.symm
    · left
      rw [if_neg hk] at hfe
      exact hfe ▸ hf
  · rcases List.mem_append.mp h with h | h
    · exact Or.inl h
    · right
      simpa using h

theorem mapSet_inv {m : JsMap PlannedPost} {k : String} {v : PlannedPost}
    (hinv : PostsMapInv m) (hv : SentOk v) : PostsMapInv (mapSet m k v) := by
  intro e he
  rcases mem_mapSet he with h | h
  · exact hinv e h
  · rw [h]
    exact hv

theorem parseStatus_sent {s : String} (h : parseStatus s = some .sent) :
    s = "sent" := by
  unfold parseStatus at h
  split_ifs at h <;> simp_all

/-- The scheduledAt step keeps the invariant when given a SentOk post. -/
theorem stepScheduledAt_inv (env : JsEnv) (posts : JsMap PlannedPost)
    (id : String) (body : UpdateBody) (q : PlannedPost) (now : Int)
    (nowIso : String) (hq : SentOk q) (hinv : PostsMapInv posts) :
    PostsMapInv (updatePost.stepScheduledAt env posts id body q now nowIso).2 := by
  unfold updatePost.stepScheduledAt updatePost.finishUpdate
  cases body.scheduledAt with
  | none =>
    dsimp only
    exact mapSet_inv hinv (fun hs => hq hs)
  | some s =>
    dsimp only
    cases env.parseMs s with
    | none => dsimp only; exact mapSet_inv hinv hq
    | some t =>
      dsimp only
      split
      · exact mapSet_inv hinv hq
      · exact mapSet_inv hinv (fun hs => hq hs)

/-- The status step keeps the invariant unless the request sets "sent". -/
theorem stepStatus_inv (env : JsEnv) (posts : JsMap PlannedPost)
    (id : String) (body : UpdateBody) (q : PlannedPost) (now : Int)
    (nowIso : String) (hq : SentOk q) (hsafe : body.status ≠ some "sent")
    (hinv : PostsMapInv posts) :
    PostsMapInv (updatePost.stepStatus env posts id body q now nowIso).2 := by
  unfold updatePost.stepStatus
  cases hsv : body.status with
  | none =>
    dsimp only
    exact stepScheduledAt_inv env posts id body q now nowIso hq hinv
  | some sv =>
    dsimp only
    cases hps : parseStatus sv with
    | none => dsimp only; exact mapSet_inv hinv hq
    | some stv =>
      dsimp only
      refine stepScheduledAt_inv env posts id body _ now nowIso ?_ hinv
      intro hs
      exfalso
      apply hsafe
      rw [hsv]
      have hstv : stv = .sent := hs
      exact congrArg some (parseStatus_sent (hstv ▸ hps))

theorem stepVisibility_inv (env : JsEnv) (posts : JsMap PlannedPost)
    (id : String) (body : UpdateBody) (q : PlannedPost) (now : Int)
    (nowIso : String) (hq : SentOk q) (hsafe : body.status ≠ some "sent")
    (hinv : PostsMapInv posts) :
    PostsMapInv (updatePost.stepVisibility env posts id body q now nowIso).2 := by
  unfold updatePost.stepVisibility
  cases body.visibility with
  | none =>
    dsimp only
    exact stepStatus_inv env posts id body q now nowIso hq hsafe hinv
  | some v =>
    dsimp only
    cases parseVisibility v with
    | none => dsimp only; exact mapSet_inv hinv hq
    | some vis =>
      dsimp only
      exact stepStatus_inv env posts id body _ now nowIso (fun hs => hq hs) hsafe hinv

theorem mapGet_some_sentOk {m : JsMap PlannedPost} {k : String}
    {v : PlannedPost} (hinv : PostsMapInv m) (h : mapGet m k = some v) :
    SentOk v := by
  unfold mapGet at h
  cases hf : m.find? (fun e => e.1 == k) with
  | none => rw [hf] at h; cases h
  | some e =>
    rw [hf] at h
    have hm := List.mem_of_find?_eq_some hf
    have := hinv e hm
    simpa [← Option.some_inj.mp h] using this

/-- A PATCH that does not set status to "sent" keeps the invariant, on
every exit path. -/
theorem updatePost_inv (env : JsEnv) (ids : JsMap AccountIdentity)
    (posts : JsMap PlannedPost) (id : String) (body : UpdateBody)
    (now : Int) (nowIso : String) (hsafe : body.status ≠ some "sent")
    (hinv : PostsMapInv posts) :
    PostsMapInv (updatePost env ids posts id body now nowIso).2 := by
  unfold updatePost
  cases hget : mapGet posts id with
  | none => exact hinv
  | some post =>
    dsimp only
    have hpost : SentOk post := mapGet_some_sentOk hinv hget
    cases currentAccountId ids post.inst with
    | none => exact hinv
    | some acct =>
      dsimp only
      split
      · exact hinv
      split
      · exact hinv
      split
      · exact hinv
      cases body.text with
      | none =>
        dsimp only
        exact stepVisibility_inv env posts id body post now nowIso hpost hsafe hinv
      | some tx =>
        dsimp only
        split
        · exact mapSet_inv hinv hpost
        · exact stepVisibility_inv env posts id body _ now nowIso
            (fun hs => hpost hs) hsafe hinv

/-- A post the create handler returns is in `scheduled` status. -/
theorem createPost_status (env : JsEnv) (ids : JsMap AccountIdentity)
    (body : CreateBody) (now : Int) (nowIso uuid : String) (p : PlannedPost)
    (h : createPost env ids body now nowIso uuid = .created p) :
    p.status = .scheduled := by
  unfold createPost at h
  repeat' split at h
  all_goals cases h
  all_goals rfl

theorem deletePost_inv (ids : JsMap AccountIdentity)
    (posts : JsMap PlannedPost) (id : String) (hinv : PostsMapInv posts) :
    PostsMapInv (deletePost ids posts id).2 := by
  unfold deletePost
  cases mapGet posts id with
  | none => exact hinv
  | some post =>
    dsimp only
    cases currentAccountId ids post.inst with
    | none => exact hinv
    | some acct =>
      dsimp only
      split
      · exact hinv
      split
      · exact hinv
      · intro e he
        exact hinv e (List.mem_of_mem_filter he)

theorem dispatchStep_inv (te : TickEnv) (st : SysState) (p : PlannedPost)
    (hinv : PostsMapInv st.posts) : PostsMapInv (dispatchStep te st p).posts := by
  unfold dispatchStep
  dsimp only
  repeat' split
  all_goals first
    | exact mapSet_inv hinv (by intro hs; simp [failedPost] at hs)
    | exact mapSet_inv hinv (by intro hs; simp [sentPost])

theorem foldl_dispatch_inv (te : TickEnv) (ps : List PlannedPost) :
    ∀ st : SysState, PostsMapInv st.posts →
      PostsMapInv ((ps.foldl (fun s p => dispatchStep te s p) st).posts) := by
  induction ps with
  | nil => intro st h; exact h
  | cons p ps ih =>
    intro st h
    exact ih _ (dispatchStep_inv te st p h)

theorem foldl_markSending_inv (nowIso : String) (ps : List PlannedPost) :
    ∀ m : JsMap PlannedPost, PostsMapInv m →
      PostsMapInv (ps.foldl (fun m p =>
        mapSet m p.id ({ p with status := .sending, updatedAt := nowIso })) m) := by
  induction ps with
  | nil => intro m h; exact h
  | cons p ps ih =>
    intro m h
    exact ih _ (mapSet_inv h (fun hs => absurd hs (by simp)))

theorem schedulerTick_inv (env : JsEnv) (te : TickEnv) (st : SysState)
    (hinv : PostsInv st) : PostsInv (schedulerTick env te st) := by
  unfold schedulerTick PostsInv at *
  dsimp only
  split
  · exact hinv
  · exact foldl_dispatch_inv te _ _ (foldl_markSending_inv te.nowIso _ _ hinv)

theorem applyOp_inv (env : JsEnv) (st : SysState) (op : Op)
    (hsafe : OpSafe op) (hinv : PostsInv st) : PostsInv (applyOp env st op) := by
  cases op with
  | create body now nowIso uuid =>
    unfold applyOp PostsInv
    dsimp only
    cases hc : createPost env st.identities body now nowIso uuid with
    | created p =>
      dsimp only
      refine mapSet_inv hinv (fun hs => ?_)
      rw [createPost_status env st.identities body now nowIso uuid p hc] at hs
      simp at hs
    | badRequest e => exact hinv
    | unauthorized e => exact hinv
  | update id body now nowIso =>
    unfold applyOp PostsInv
    dsimp only
    exact updatePost_inv env st.identities st.posts id body now nowIso hsafe hinv
  | erase id =>
    unfold applyOp PostsInv
    dsimp only
    exact deletePost_inv st.identities st.posts id hinv
  | tick te =>
    unfold applyOp
    dsimp only
    exact schedulerTick_inv env te st hinv

/-- Counterexample to C7 as stated: starting from an empty store, create a
post for the logged-in account, then PATCH it with status="sent" (a value
the handler's allowed list accepts).  The resulting reachable record has
status `sent`, but `remoteId` absent — the claimed invariant fails on
states reachable through updates. -/
theorem c7_sent_invariant_counterexample :
    mapGet (applyOps Sample.env Sample.stC7 Sample.opsC7).posts "p9" =
      some { id := "p9", inst := Sample.origin, ownerAccountId := some "acct-1",
             scheduledAt := "2000", text := "Hello", visibility := .pub,
             status := .sent, attempts := 0, lastError := none, sentAt := none,
             remoteId := none, createdAt := "t0", updatedAt := "t2" } := by
  decide

/-- C7 amended: for every post record reachable from an invariant-satisfying
state by create, delete and scheduler operations and by updates whose
status field is not "sent", status `sent` implies remoteId set and
lastError absent; a PATCH that sets status to "sent" directly can violate
it (see the counterexample). -/
theorem c7_sent_invariant_amended (env : JsEnv) (ops : List Op) :
    ∀ st : SysState, (∀ op ∈ ops, OpSafe op) → PostsInv st →
      PostsInv (applyOps env st ops) := by
  induction ops with
  | nil => intro st _ h; exact h
  | cons op ops ih =>
    intro st hsafe h
    exact ih _ (fun o ho => hsafe o (List.mem_cons_of_mem _ ho))
      (applyOp_inv env st op (hsafe op (List.mem_cons_self _ _)) h)

/-- Witness for the amended C7: a create followed by a successful scheduler
tick keeps the invariant. -/
theorem c7_sent_invariant_amended_witness :
    PostsInv (applyOps Sample.env Sample.stC7
      [Op.create Sample.bodyCreateC7 0 "t0" "p9", Op.tick Sample.teOk]) := by
  refine c7_sent_invariant_amended Sample.env _ Sample.stC7 ?_ ?_
  · intro op hop
    rcases List.mem_cons.mp hop with h | hop2
    · rw [h]; trivial
    rcases List.mem_cons.mp hop2 with h | h3
    · rw [h]; trivial
    · cases h3
  · intro e he
    cases he

/-- Counterexample to C6 as stated: two posts of the same origin, owner and
scheduledAt, stored with id "b" before id "a".  The listing keeps them in
store order ("b" first) — JS sort is stable and compares only the
scheduledAt string — so ties are NOT broken by the identifier's lexical
order, which would put "a" first. -/
theorem c6_list_window_counterexample :
    listPosts Sample.env [(Sample.origin, Sample.identW)] Sample.postsTie
      Sample.origin "2020" "2040" = .ok [Sample.postB, Sample.postA] ∧
    Sample.postB.scheduledAt = Sample.postA.scheduledAt ∧
    Sample.postB.id = "b" ∧ Sample.postA.id = "a" := by
  refine ⟨?_, by decide, by decide, by decide⟩
  simp +decide [listPosts, Sample.env, Sample.postsTie, Sample.postA, Sample.postB,
    Sample.identW, Sample.origin, mapValues, mapGet, currentAccountId,
    List.mergeSort, List.find?, List.filter]

/-- C6 amended: listing with from=T0, to=T1 returns exactly the stored
posts of the requested origin and owning account whose scheduledAt parses
to t with T0 ≤ t < T1, sorted ascending by the scheduledAt string; posts
with equal scheduledAt keep their relative order from the store (stable
sort) rather than being ordered by id. -/
theorem c6_list_window_amended (env : JsEnv) (ids : JsMap AccountIdentity)
    (posts : JsMap PlannedPost) (instStr fromStr toStr origin acct : String)
    (T0 T1 : Int)
    (hne1 : instStr ≠ "") (hne2 : fromStr ≠ "") (hne3 : toStr ≠ "")
    (hval : env.validate instStr = some origin)
    (hfrom : env.parseMs fromStr = some T0) (hto : env.parseMs toStr = some T1)
    (hacct : currentAccountId ids origin = some acct) (hAcctNe : acct ≠ "") :
    ∃ l, listPosts env ids posts instStr fromStr toStr = .ok l ∧
      (∀ p, p ∈ l ↔ (p ∈ mapValues posts ∧ p.inst = origin ∧
        p.ownerAccountId = some acct ∧
        ∃ t, env.parseMs p.scheduledAt = some t ∧ T0 ≤ t ∧ t < T1)) ∧
      l.Pairwise (fun a b => a.scheduledAt ≤ b.scheduledAt) ∧
      (∀ a b, [a, b].Sublist (mapValues posts) →
        a.inst = origin → a.ownerAccountId = some acct →
        (∃ t, env.parseMs a.scheduledAt = some t ∧ T0 ≤ t ∧ t < T1) →
        b.inst = origin → b.ownerAccountId = some acct →
        (∃ t, env.parseMs b.scheduledAt = some t ∧ T0 ≤ t ∧ t < T1) →
        a.scheduledAt ≤ b.scheduledAt →
        [a, b].Sublist l) := by
  have htrans : ∀ a b c : PlannedPost,
      decide (a.scheduledAt ≤ b.scheduledAt) = true →
      decide (b.scheduledAt ≤ c.scheduledAt) = true →
      decide (a.scheduledAt ≤ c.scheduledAt) = true := by
    intro a b c hab hbc
    simp only [decide_eq_true_eq] at *
    exact le_trans hab hbc
  have htotal : ∀ a b : PlannedPost,
      (decide (a.scheduledAt ≤ b.scheduledAt)
        || decide (b.scheduledAt ≤ a.scheduledAt)) = true := by
    intro a b
    rcases le_total a.scheduledAt b.scheduledAt with h | h <;> simp [h]
  unfold listPosts
  rw [if_neg (by simp [hne1, hne2, hne3])]
  simp only [hval, hfrom, hto, hacct]
  rw [if_neg hAcctNe]
  refine ⟨_, rfl, ?_, ?_, ?_⟩
  · intro p
    rw [(List.mergeSort_perm _ _).mem_iff]
    simp only [List.mem_filter, beq_iff_eq]
    constructor
    · rintro ⟨⟨⟨hmem, h1⟩, h2⟩, h3⟩
      refine ⟨hmem, h1, h2, ?_⟩
      cases hpt : env.parseMs p.scheduledAt with
      | none => rw [hpt] at h3; cases h3
      | some t =>
        rw [hpt] at h3
        exact ⟨t, rfl, of_decide_eq_true h3⟩
    · rintro ⟨hmem, h1, h2, t, hpt, hwin⟩
      refine ⟨⟨⟨hmem, h1⟩, h2⟩, ?_⟩
      rw [hpt]
      exact decide_eq_true hwin
  · have hs := List.sorted_mergeSort htrans htotal
      ((((mapValues posts).filter (fun p => p.inst == origin)).filter
        (fun p => p.ownerAccountId == some acct)).filter
        (fun p =>
          match env.parseMs p.scheduledAt with
          | some t => decide (T0 ≤ t ∧ t < T1)
          | none => false))
    exact hs.imp (fun h => of_decide_eq_true h)
  · intro a b hsub ha1 ha2 ha3 hb1 hb2 hb3 hab
    apply List.mergeSort_stable htrans htotal
    · exact List.pairwise_pair.mpr (decide_eq_true hab)
    · have s1 := hsub.filter (fun p => p.inst == origin)
      rw [show [a, b].filter (fun p => p.inst == origin) = [a, b] by
        simp [List.filter, ha1, hb1]] at s1
      have s2 := s1.filter (fun p => p.ownerAccountId == some acct)
      rw [show [a, b].filter (fun p => p.ownerAccountId == some acct) = [a, b] by
        simp [List.filter, ha2, hb2]] at s2
      have s3 := s2.filter (fun p =>
        match env.parseMs p.scheduledAt with
        | some t => decide (T0 ≤ t ∧ t < T1)
        | none => false)
      rw [show [a, b].filter (fun p =>
          match env.parseMs p.scheduledAt with
          | some t => decide (T0 ≤ t ∧ t < T1)
          | none => false) = [a, b] by
        obtain ⟨ta, hta, hwa⟩ := ha3
        obtain ⟨tb, htb, hwb⟩ := hb3
        simp [List.filter, hta, htb, hwa, hwb]] at s3
      exact s3

/-- Witness for the amended C6 at the tie fixtures: the concrete listing
result, and its sortedness obtained through the amended theorem. -/
theorem c6_list_window_amended_witness :
    listPosts Sample.env [(Sample.origin, Sample.identW)] Sample.postsTie
      Sample.origin "2020" "2040" = .ok [Sample.postB, Sample.postA] ∧
    [Sample.postB, Sample.postA].Pairwise
      (fun a b => a.scheduledAt ≤ b.scheduledAt) := by
  obtain ⟨l, hl, hmem, hsort, hstab⟩ :=
    c6_list_window_amended Sample.env [(Sample.origin, Sample.identW)]
      Sample.postsTie Sample.origin "2020" "2040" Sample.origin "acct-1" 10 3000
      (by decide) (by decide) (by decide) rfl rfl rfl rfl (by decide)
  have hconc : listPosts Sample.env [(Sample.origin, Sample.identW)] Sample.postsTie
      Sample.origin "2020" "2040" = .ok [Sample.postB, Sample.postA] := by
    simp +decide [listPosts, Sample.env, Sample.postsTie, Sample.postA, Sample.postB,
      Sample.identW, Sample.origin, mapValues, mapGet, currentAccountId,
      List.mergeSort, List.find?, List.filter]
  have hleq : l = [Sample.postB, Sample.postA] := by
    have := hl.symm.trans hconc
    injection this
  exact ⟨hconc, hleq ▸ hsort⟩

end Fedical
